import Mathlib

/-!
Verification of the entropy-driven compatibility and recommendation engine of
Curator Apollon (source: src/services/entropy_service.py, data model:
src/models/library.py).

Shallow embedding conventions:
- Python floats (entropy, bpm) are modelled as exact rationals.
- Python lists are Lean lists; Python bytes are lists of naturals.
- Python int(...) truncation toward zero is modelled by rat_trunc.
- The fallible HTTP entropy source is modelled as a function
  net : Nat -> Option (List Nat); None stands for every failure outcome
  (non-2xx status, connection error, timeout), which the source code
  normalizes to a single None result.
- Functions that raise are modelled with Except.
-/

/-- Track record from src/models/library.py (the fields the engine reads). -/
structure Track where
  id : String
  title : String
  artist : String
  bpm : Rat
  key : String
  camelot_position : String
  energy_level : Rat
  time_signature : String := "4/4"
  genres : List String := []
deriving DecidableEq

/-- ParsedCamelotKey NamedTuple: number and mode, as produced by the parser. -/
structure ParsedCamelotKey where
  number : Int
  mode : Char
deriving DecidableEq

/-- Code points of the characters Python int() strips around a numeral.
CPython transforms exactly these to an ASCII space before parsing; the set
was verified against CPython 3.11 over the whole code-point range (note
0x1C-0x1F satisfy str.isspace but are NOT stripped by int()). -/
def PY_INT_SPACE_CODES : List Nat :=
  [0x9, 0xA, 0xB, 0xC, 0xD, 0x20, 0x85, 0xA0, 0x1680,
   0x2000, 0x2001, 0x2002, 0x2003, 0x2004, 0x2005, 0x2006, 0x2007,
   0x2008, 0x2009, 0x200A, 0x2028, 0x2029, 0x202F, 0x205F, 0x3000]

/-- A character Python int() treats as strippable surrounding whitespace. -/
def isPyWhitespaceChar (c : Char) : Bool :=
  PY_INT_SPACE_CODES.contains c.toNat

/-- First code points (digit value 0) of every contiguous Unicode decimal
digit range (category Nd, Unicode data of CPython 3.11). Python int()
accepts every such character, with the value given by its offset inside
its range. -/
def PY_DECIMAL_DIGIT_BASES : List Nat :=
  [0x30, 0x660, 0x6F0, 0x7C0, 0x966, 0x9E6, 0xA66, 0xAE6, 0xB66, 0xBE6,
   0xC66, 0xCE6, 0xD66, 0xDE6, 0xE50, 0xED0, 0xF20, 0x1040, 0x1090, 0x17E0,
   0x1810, 0x1946, 0x19D0, 0x1A80, 0x1A90, 0x1B50, 0x1BB0, 0x1C40, 0x1C50,
   0xA620, 0xA8D0, 0xA900, 0xA9D0, 0xA9F0, 0xAA50, 0xABF0, 0xFF10,
   0x104A0, 0x10D30, 0x11066, 0x110F0, 0x11136, 0x111D0, 0x112F0, 0x11450,
   0x114D0, 0x11650, 0x116C0, 0x11730, 0x118E0, 0x11950, 0x11C50, 0x11D50,
   0x11DA0, 0x16A60, 0x16AC0, 0x16B50, 0x1D7CE, 0x1D7D8, 0x1D7E2, 0x1D7EC,
   0x1D7F6, 0x1E140, 0x1E2F0, 0x1E950, 0x1FBF0]

/-- Decimal value of a character under Python int(): its offset in its
Unicode decimal digit range, when it lies in one. -/
def pyDigitVal (c : Char) : Option Nat :=
  PY_DECIMAL_DIGIT_BASES.findSome? fun b =>
    if b ≤ c.toNat ∧ c.toNat ≤ b + 9 then some (c.toNat - b) else none

/-- Digit run of a Python int literal: Unicode decimal digits with single
underscores strictly between digits. The Bool argument records whether the
previous character was a digit. -/
def pyIntDigitsGo : List Char → Nat → Bool → Option Nat
  | [], acc, true => some acc
  | [], _, false => none
  | c :: cs, acc, lastWasDigit =>
    match pyDigitVal c with
    | some v => pyIntDigitsGo cs (acc * 10 + v) true
    | none =>
      if c == '_' && lastWasDigit then pyIntDigitsGo cs acc false
      else none

/-- Model of Python int(s) for a string s: optional surrounding whitespace
(the exact strippable set), an optional ASCII sign, then a run of Unicode
decimal digits with optional single underscores between them; any other
shape raises ValueError, modelled as none. CPython first rewrites Unicode
digits and whitespace to ASCII and then parses, which this models directly. -/
def pyInt (s : String) : Option Int :=
  let cs := s.data.dropWhile isPyWhitespaceChar
  let cs := (cs.reverse.dropWhile isPyWhitespaceChar).reverse
  match cs with
  | '+' :: rest => (pyIntDigitsGo rest 0 false).map (fun n => (n : Int))
  | '-' :: rest => (pyIntDigitsGo rest 0 false).map (fun n => -(n : Int))
  | rest => (pyIntDigitsGo rest 0 false).map (fun n => (n : Int))

/-- EntropyService._parse_camelot_key: length 2 or 3, int(s[:-1]) in [1,12],
s[-1] in \x7b A, B \x7d; every violation gives none (ValueError is caught). -/
def parse_camelot_key (camelot_str : String) : Option ParsedCamelotKey :=
  if 2 ≤ camelot_str.length ∧ camelot_str.length ≤ 3 then
    match pyInt (String.mk camelot_str.data.dropLast) with
    | none => none
    | some number =>
      if 1 ≤ number ∧ number ≤ 12 ∧
          (camelot_str.data.getLastD ' ' = 'A' ∨ camelot_str.data.getLastD ' ' = 'B') then
        some ⟨number, camelot_str.data.getLastD ' '⟩
      else none
  else none

/-- Modelled from the spec words of claim C8 (refinement target, not taken
from the source): the label has length 2 to 3, every character except the
last is a decimal digit, those digits denote an integer in [1,12], and the
last character is A or B. -/
def spec_camelot_well_formed (s : String) : Bool :=
  let ds := s.data.dropLast
  let n := ds.foldl (fun acc c => acc * 10 + (c.toNat - 48)) (0 : Nat)
  decide (2 ≤ s.length) && decide (s.length ≤ 3) &&
  ds.all Char.isDigit &&
  decide (1 ≤ n) && decide (n ≤ 12) &&
  (s.data.getLastD ' ' == 'A' || s.data.getLastD ' ' == 'B')

/-- Python int() truncates toward zero when applied to a float. -/
def rat_trunc (q : Rat) : Int := if 0 ≤ q then ⌊q⌋ else ⌈q⌉

/-- EntropyService._bpm_tolerance: 5 + int(entropy_level * 20). -/
def bpm_tolerance (entropy_level : Rat) : Int :=
  5 + rat_trunc (entropy_level * 20)

/-- Adjacent numbers, same mode (e.g. 8A and 9A). -/
def is_adjacent_same_mode (pk1 pk2 : ParsedCamelotKey) : Bool :=
  (pk1.number - pk2.number).natAbs == 1 && pk1.mode == pk2.mode

/-- Wheel wrap-around for adjacency (12 and 1), same mode. -/
def is_wrap_around_same_mode (pk1 pk2 : ParsedCamelotKey) : Bool :=
  ((pk1.number == 12 && pk2.number == 1) || (pk1.number == 1 && pk2.number == 12)) &&
  pk1.mode == pk2.mode

/-- Energy boost: same number, opposite mode. -/
def is_energy_boost (pk1 pk2 : ParsedCamelotKey) : Bool :=
  pk1.number == pk2.number && pk1.mode != pk2.mode

/-- Wider jump: numeric distance exactly 2 (or 10 for wrap-around), same mode. -/
def is_wider_jump_same_mode (pk1 pk2 : ParsedCamelotKey) : Bool :=
  let diff := (pk1.number - pk2.number).natAbs
  (diff == 2 || diff == 10) && pk1.mode == pk2.mode

/-- EntropyService._is_key_compatible. The source returns False early inside
the entropy_level <= 0.5 block when entropy_level <= 0.25 and adjacency
failed; for 0.25 < entropy_level <= 0.5 control falls through to the two
later blocks, whose guards need entropy_level > 0.5, and then returns False,
so both paths yield the same value, reflected here by a single branch. -/
def is_key_compatible (opk1 opk2 : Option ParsedCamelotKey) (entropy_level : Rat) : Bool :=
  match opk1, opk2 with
  | some pk1, some pk2 =>
    if pk1 = pk2 then true
    else if entropy_level ≤ 0.5 then
      is_adjacent_same_mode pk1 pk2 || is_wrap_around_same_mode pk1 pk2
    else if entropy_level ≤ 0.75 then
      is_energy_boost pk1 pk2 || is_adjacent_same_mode pk1 pk2 ||
      is_wrap_around_same_mode pk1 pk2
    else
      is_energy_boost pk1 pk2 || is_adjacent_same_mode pk1 pk2 ||
      is_wrap_around_same_mode pk1 pk2 || is_wider_jump_same_mode pk1 pk2
  | _, _ => false

/-- EntropyService._is_time_signature_compatible. Track.time_signature is
typed str in the data model, so the None guard of the source is vacuous. -/
def is_time_signature_compatible (ts1 ts2 : String) (entropy_level : Rat) : Bool :=
  if ts1 = "Unknown" ∨ ts2 = "Unknown" then false
  else if ts1 = ts2 then true
  else if 0.6 ≤ entropy_level then
    (ts1 == "4/4" && ts2 == "2/4") || (ts1 == "2/4" && ts2 == "4/4") ||
    (ts1 == "4/4" && ts2 == "2/2") || (ts1 == "2/2" && ts2 == "4/4") ||
    (ts1 == "3/4" && ts2 == "6/8") || (ts1 == "6/8" && ts2 == "3/4")
  else false

/-- Python str.lower, modelled as the character-wise ASCII lowering (a
deliberate restriction: full Unicode lowercasing is not modelled; every
genre comparison below applies py_lower symmetrically to both sides, and
the keyword vocabulary is ASCII, so the judged properties do not depend on
non-ASCII lowering). -/
def py_lower (s : String) : String := String.mk (s.data.map Char.toLower)

/-- Needle is a leading segment of the haystack (character lists). -/
def charsStartWith : List Char → List Char → Bool
  | [], _ => true
  | _ :: _, [] => false
  | a :: as, b :: bs => a == b && charsStartWith as bs

/-- Python substring containment on character lists. -/
def charsContainSub (needle : List Char) : List Char → Bool
  | [] => charsStartWith needle []
  | c :: cs => charsStartWith needle (c :: cs) || charsContainSub needle cs

/-- Python substring test: needle in hay. -/
def str_contains_sub (needle hay : String) : Bool :=
  charsContainSub needle.data hay.data

/-- Broad genre keyword vocabulary (BROAD_GENRE_KEYWORDS of the source). -/
def BROAD_GENRE_KEYWORDS : List String :=
  ["ambient", "atmospheric", "soundtrack", "score", "experimental",
   "electronic", "synth", "idm", "techno", "house", "trance", "downtempo",
   "industrial", "ebm", "aggrotech", "noise",
   "rock", "metal", "punk", "alternative", "indie", "post-rock", "shoegaze",
   "classical", "orchestral", "choral",
   "jazz", "blues",
   "folk", "acoustic",
   "hip hop", "rap",
   "reggae", "dub",
   "world"]

/-- EntropyService._get_track_genre_keywords: the set of vocabulary keywords
occurring as substrings of some lowercased genre tag, here listed in
vocabulary order (the source builds a Python set, whose iteration order is
irrelevant to every use, which is membership-based). -/
def get_track_genre_keywords (track_genres : List String) : List String :=
  if track_genres.isEmpty then []
  else BROAD_GENRE_KEYWORDS.filter (fun kw =>
    (track_genres.map py_lower).any (fun g => str_contains_sub kw g))

/-- Exact genre intersection: some lowercased tag of the first list is among
the lowercased tags of the second. -/
def genres_exact_shared (genres1 genres2 : List String) : Bool :=
  (genres1.map py_lower).any (fun g => (genres2.map py_lower).contains g)

/-- Shared broad keyword between the two keyword sets. -/
def genres_keyword_shared (genres1 genres2 : List String) : Bool :=
  (get_track_genre_keywords genres1).any
    (fun k => (get_track_genre_keywords genres2).contains k)

/-- EntropyService._are_genres_compatible. -/
def are_genres_compatible (genres1 genres2 : List String) (entropy_level : Rat) : Bool :=
  if genres1.isEmpty && genres2.isEmpty then true
  else if genres1.isEmpty || genres2.isEmpty then decide (0.75 ≤ entropy_level)
  else if entropy_level < 0.3 then genres_exact_shared genres1 genres2
  else if entropy_level < 0.7 then
    genres_exact_shared genres1 genres2 || genres_keyword_shared genres1 genres2
  else if genres_exact_shared genres1 genres2 then true
  else if genres_keyword_shared genres1 genres2 then true
  else decide (0.9 ≤ entropy_level)

/-- Tempo sub-predicate of _is_compatible: bpm distance within tolerance. -/
def bpm_close (track1 track2 : Track) (entropy_level : Rat) : Bool :=
  decide (|track1.bpm - track2.bpm| ≤ ((bpm_tolerance entropy_level : Int) : Rat))

/-- Key sub-predicate of _is_compatible, on the parsed Camelot positions. -/
def key_match (track1 track2 : Track) (entropy_level : Rat) : Bool :=
  is_key_compatible (parse_camelot_key track1.camelot_position)
    (parse_camelot_key track2.camelot_position) entropy_level

/-- Time-signature sub-predicate of _is_compatible. -/
def time_sig_match (track1 track2 : Track) (entropy_level : Rat) : Bool :=
  is_time_signature_compatible track1.time_signature track2.time_signature entropy_level

/-- Genre sub-predicate of _is_compatible. -/
def genre_match (track1 track2 : Track) (entropy_level : Rat) : Bool :=
  are_genres_compatible track1.genres track2.genres entropy_level

/-- Python sum over a list of booleans. -/
def pyBoolSum (l : List Bool) : Nat :=
  (l.map (fun b => if b then 1 else 0)).sum

/-- EntropyService._is_compatible: the entropy-tiered combination of the four
sub-predicates. -/
def is_compatible (track1 track2 : Track) (entropy_level : Rat) : Bool :=
  if entropy_level < 0.5 then
    bpm_close track1 track2 entropy_level && key_match track1 track2 entropy_level &&
    time_sig_match track1 track2 entropy_level && genre_match track1 track2 entropy_level
  else if entropy_level < 0.8 then
    decide (3 ≤ pyBoolSum [bpm_close track1 track2 entropy_level,
      key_match track1 track2 entropy_level,
      time_sig_match track1 track2 entropy_level,
      genre_match track1 track2 entropy_level])
  else
    decide (2 ≤ pyBoolSum [bpm_close track1 track2 entropy_level,
      key_match track1 track2 entropy_level,
      time_sig_match track1 track2 entropy_level,
      genre_match track1 track2 entropy_level])

/-- In-place swap of two list positions; out-of-range indices leave the list
unchanged (in the shuffle both indices are always in range). -/
def listSwap {α : Type} (l : List α) (i j : Nat) : List α :=
  match l[i]?, l[j]? with
  | some a, some b => (l.set i b).set j a
  | _, _ => l

/-- The Fisher-Yates loop of _quantum_shuffle: the Nat argument is the
current loop index i, running from n-1 down to 1, one byte consumed per
iteration; the loop breaks when the bytes run out. -/
def quantumShuffleGo {α : Type} : List α → List Nat → Nat → List α
  | items, _, 0 => items
  | items, [], _ + 1 => items
  | items, b :: bs, i + 1 => quantumShuffleGo (listSwap items (i + 1) (b % (i + 2))) bs i

/-- EntropyService._quantum_shuffle: Fisher-Yates driven by the fetched
bytes, over a copy of the input; with no bytes or no items the copy is
returned unshuffled. -/
def quantum_shuffle {α : Type} (items : List α) (qr_bytes : List Nat) : List α :=
  if qr_bytes.isEmpty || items.isEmpty then items
  else quantumShuffleGo items qr_bytes (items.length - 1)

/-- Most frequent element, ties resolved to the earliest-inserted one, as
Counter(xs).most_common(1) does; none exactly when the list is empty. -/
def modeFirstSeen {α : Type} [BEq α] (l : List α) : Option α :=
  l.eraseDups.foldl (fun acc x =>
    match acc with
    | none => some x
    | some b => if l.count b < l.count x then some x else acc) none

/-- Insert x into a list sorted by descending count (insertion step of the
Counter.most_common ranking). -/
def insertByCountDesc {α : Type} [BEq α] (l : List α) (x : α) : List α → List α
  | [] => [x]
  | y :: ys => if l.count y < l.count x then x :: y :: ys else y :: insertByCountDesc l x ys

/-- Distinct elements of l ranked by descending multiplicity, modelling
Counter(l).most_common (tie order among equal counts is not observed by any
use: the keywords are only consumed as a set). -/
def keysByCountDesc {α : Type} [BEq α] (l : List α) : List α :=
  l.eraseDups.foldr (fun x acc => insertByCountDesc l x acc) []

/-- The centroid feature bundle built by _calculate_playlist_centroid. -/
structure CentroidFeatures where
  bpm : Rat
  camelot_parsed : Option ParsedCamelotKey
  time_signature : String
  genre_keywords : List String

/-- EntropyService._calculate_playlist_centroid. -/
def calculate_playlist_centroid (tracks : List Track) : Option CentroidFeatures :=
  if tracks.isEmpty then none
  else
    let valid_bpms := (tracks.map Track.bpm).filter (fun b => decide (0 < b))
    let avg_bpm := if valid_bpms.isEmpty then (120 : Rat)
      else valid_bpms.sum / (valid_bpms.length : Rat)
    let parsed_keys := (tracks.map (fun t => parse_camelot_key t.camelot_position)).filterMap id
    let mode_camelot_parsed := modeFirstSeen parsed_keys
    let valid_time_sigs := (tracks.map Track.time_signature).filter
      (fun s => !(s == "") && !(s == "Unknown"))
    let mode_time_sig := (modeFirstSeen valid_time_sigs).getD "4/4"
    let all_track_keywords := (tracks.map (fun t => get_track_genre_keywords t.genres)).flatten
    let centroid_genres_keywords :=
      if all_track_keywords.isEmpty then []
      else (keysByCountDesc all_track_keywords).take 3
    some ⟨avg_bpm, mode_camelot_parsed, mode_time_sig, centroid_genres_keywords⟩

/-- The candidate pool of recommend_tracks: the library minus every track
carrying the seed identifier. -/
def candidate_tracks (current_tracks : List Track) (current_playing_track : Track) : List Track :=
  current_tracks.filter (fun t => !(t.id == current_playing_track.id))

/-- The synthetic centroid Track built by recommend_tracks, present exactly
when the centroid features exist and carry a modal parsed Camelot key. -/
def centroid_track_surrogate (current_tracks : List Track) : Option Track :=
  match calculate_playlist_centroid current_tracks with
  | none => none
  | some feats =>
    match feats.camelot_parsed with
    | none => none
    | some pk =>
      some { id := "_playlist_centroid", title := "Playlist Centroid",
             artist := "Various", bpm := feats.bpm, key := "",
             camelot_position := toString pk.number ++ String.mk [pk.mode],
             energy_level := 0.5, time_signature := feats.time_signature,
             genres := feats.genre_keywords }

/-- The candidate filter of recommend_tracks: keep a candidate when it is
compatible with the current track, or (above entropy 0.55, when the
surrogate exists) with the centroid surrogate graded at min(1, entropy+0.15). -/
def compatible_raw (current_tracks : List Track) (current_playing_track : Track)
    (entropy_level : Rat) : List Track :=
  (candidate_tracks current_tracks current_playing_track).filter (fun track =>
    is_compatible track current_playing_track entropy_level ||
    (match centroid_track_surrogate current_tracks with
     | some c =>
       decide (0.55 < entropy_level) &&
       is_compatible track c (min 1 (entropy_level + 0.15))
     | none => false))

/-- The identifier de-duplication pass of recommend_tracks (first occurrence
of each id wins). -/
def dedupByIdGo : List Track → List String → List Track
  | [], _ => []
  | t :: rest, seen =>
    if seen.contains t.id then dedupByIdGo rest seen
    else t :: dedupByIdGo rest (t.id :: seen)

/-- The compatible set of recommend_tracks after de-duplication by id. -/
def compatible_tracks (current_tracks : List Track) (current_playing_track : Track)
    (entropy_level : Rat) : List Track :=
  dedupByIdGo (compatible_raw current_tracks current_playing_track entropy_level) []

/-- EntropyService.get_quantum_random_bytes, with the HTTP layer abstracted
as net: a non-positive size returns None at once without touching the
network; otherwise one GET is issued and every HTTP failure is normalized by
the except clauses to None, which net models directly. -/
def get_quantum_random_bytes (net : Nat → Option (List Nat)) (size : Int) : Option (List Nat) :=
  if size ≤ 0 then none else net size.toNat

/-- Python list slicing l[:k], including the negative-k case which keeps all
but the last -k elements. -/
def pySlice {α : Type} (l : List α) (k : Int) : List α :=
  if 0 ≤ k then l.take k.toNat else l.take ((l.length : Int) + k).toNat

/-- Python truthiness of the fetched bytes: None and the empty byte string
are both falsy. -/
def optBytesFalsy (o : Option (List Nat)) : Bool :=
  match o with
  | none => true
  | some l => l.isEmpty

/-- EntropyService.recommend_tracks. The empty-library guard precedes the
entropy-range check, which raises ValueError, modelled as Except.error. -/
def recommend_tracks (net : Nat → Option (List Nat)) (current_tracks : List Track)
    (current_playing_track : Track) (entropy_level : Rat)
    (num_recommendations : Int) : Except String (List Track) :=
  if current_tracks.isEmpty then .ok []
  else if ¬ (0 ≤ entropy_level ∧ entropy_level ≤ 1) then
    .error "Entropy level must be between 0.0 and 1.0."
  else if (candidate_tracks current_tracks current_playing_track).isEmpty then .ok []
  else
    let compat := compatible_tracks current_tracks current_playing_track entropy_level
    if compat.isEmpty then .ok []
    else
      let num_to_select : Int := min (compat.length : Int) num_recommendations
      if num_to_select = 0 then .ok []
      else
        let bytes_for_shuffle : Nat := if 1 < compat.length then compat.length - 1 else 0
        let q_bytes : Option (List Nat) :=
          if 0 < bytes_for_shuffle then
            get_quantum_random_bytes net (bytes_for_shuffle : Int)
          else none
        if optBytesFalsy q_bytes then
          if entropy_level < 0.1 ∨ compat.length ≤ 1 then .ok (pySlice compat num_to_select)
          else .ok []
        else .ok (pySlice (quantum_shuffle compat (q_bytes.getD [])) num_to_select)

/-! Concrete fixtures used by witnesses and counterexamples. -/

/-- An always-failing entropy source (every HTTP fetch fails). -/
def netNone : Nat → Option (List Nat) := fun _ => none

/-- An always-succeeding entropy source returning n bytes of value 7. -/
def netGood : Nat → Option (List Nat) := fun n => some (List.replicate n 7)

/-- Fixture track A (seed). -/
def trackA : Track :=
  { id := "a", title := "Song A", artist := "X", bpm := 120, key := "8A",
    camelot_position := "8A", energy_level := 0.7, time_signature := "4/4", genres := [] }

/-- Fixture track B, compatible with A at entropy 0. -/
def trackB : Track :=
  { id := "b", title := "Song B", artist := "X", bpm := 121, key := "8A",
    camelot_position := "8A", energy_level := 0.6, time_signature := "4/4", genres := [] }

/-- Fixture track C, compatible with A at entropy 0. -/
def trackC : Track :=
  { id := "c", title := "Song C", artist := "Y", bpm := 122, key := "8A",
    camelot_position := "8A", energy_level := 0.5, time_signature := "4/4", genres := [] }

/-- Fixture track with an unparseable Camelot position. -/
def trackU1 : Track :=
  { id := "u1", title := "Song U1", artist := "X", bpm := 120, key := "Unknown",
    camelot_position := "Unknown", energy_level := 0.5, time_signature := "4/4", genres := [] }

/-- Second fixture track with an unparseable Camelot position. -/
def trackU2 : Track :=
  { id := "u2", title := "Song U2", artist := "Y", bpm := 121, key := "Unknown",
    camelot_position := "Unknown", energy_level := 0.5, time_signature := "4/4", genres := [] }

/-! Helper lemmas about the shuffle being a permutation. -/

theorem get_cons_set_perm {α : Type} (xs : List α) :
    ∀ (k : Nat) (hk : k < xs.length) (x : α),
      List.Perm (xs.get ⟨k, hk⟩ :: xs.set k x) (x :: xs) := by
  induction xs with
  | nil => intro k hk x; simp at hk
  | cons y ys ih =>
    intro k hk x
    cases k with
    | zero =>
      simpa using List.Perm.swap x y ys
    | succ k =>
      have hk2 : k < ys.length := by simpa using hk
      show List.Perm (ys.get ⟨k, hk2⟩ :: y :: ys.set k x) (x :: y :: ys)
      exact ((List.Perm.swap y _ _).trans ((ih k hk2 x).cons y)).trans (List.Perm.swap x y ys)

theorem set_set_perm {α : Type} (l : List α) :
    ∀ (i j : Nat) (hi : i < l.length) (hj : j < l.length),
      List.Perm ((l.set i (l.get ⟨j, hj⟩)).set j (l.get ⟨i, hi⟩)) l := by
  induction l with
  | nil => intro i j hi _; simp at hi
  | cons y ys ih =>
    intro i j hi hj
    cases i with
    | zero =>
      cases j with
      | zero =>
        show List.Perm (y :: ys) (y :: ys)
        exact List.Perm.refl _
      | succ j =>
        have hj2 : j < ys.length := by simpa using hj
        show List.Perm (ys.get ⟨j, hj2⟩ :: ys.set j y) (y :: ys)
        exact get_cons_set_perm ys j hj2 y
    | succ i =>
      cases j with
      | zero =>
        have hi2 : i < ys.length := by simpa using hi
        show List.Perm (ys.get ⟨i, hi2⟩ :: ys.set i y) (y :: ys)
        exact get_cons_set_perm ys i hi2 y
      | succ j =>
        have hi2 : i < ys.length := by simpa using hi
        have hj2 : j < ys.length := by simpa using hj
        show List.Perm (y :: (ys.set i (ys.get ⟨j, hj2⟩)).set j (ys.get ⟨i, hi2⟩)) (y :: ys)
        exact List.Perm.cons y (ih i j hi2 hj2)

theorem listSwap_perm {α : Type} (l : List α) (i j : Nat) : List.Perm (listSwap l i j) l := by
  unfold listSwap
  split
  · next a b h1 h2 =>
    have hi : i < l.length := by
      by_contra h
      rw [List.getElem?_eq_none (le_of_not_lt h)] at h1
      exact Option.noConfusion h1
    have hj : j < l.length := by
      by_contra h
      rw [List.getElem?_eq_none (le_of_not_lt h)] at h2
      exact Option.noConfusion h2
    have ha : a = l.get ⟨i, hi⟩ := by
      rw [List.getElem?_eq_getElem hi] at h1
      exact (Option.some_inj.mp h1).symm
    have hb : b = l.get ⟨j, hj⟩ := by
      rw [List.getElem?_eq_getElem hj] at h2
      exact (Option.some_inj.mp h2).symm
    rw [ha, hb]
    exact set_set_perm l i j hi hj
  · exact List.Perm.refl l

theorem quantumShuffleGo_perm {α : Type} :
    ∀ (bytes : List Nat) (items : List α) (i : Nat),
      List.Perm (quantumShuffleGo items bytes i) items := by
  intro bytes
  induction bytes with
  | nil =>
    intro items i
    cases i with
    | zero => exact List.Perm.refl _
    | succ i => exact List.Perm.refl _
  | cons b bs ih =>
    intro items i
    cases i with
    | zero => exact List.Perm.refl _
    | succ i =>
      show List.Perm (quantumShuffleGo (listSwap items (i + 1) (b % (i + 2))) bs i) items
      exact (ih _ i).trans (listSwap_perm items (i + 1) (b % (i + 2)))

theorem quantum_shuffle_perm {α : Type} (items : List α) (qr_bytes : List Nat) :
    List.Perm (quantum_shuffle items qr_bytes) items := by
  unfold quantum_shuffle
  split
  · exact List.Perm.refl _
  · exact quantumShuffleGo_perm qr_bytes items (items.length - 1)

/-! Helper lemmas about de-duplication, slicing and the compatible set. -/

theorem dedupByIdGo_subset :
    ∀ (l : List Track) (seen : List String) (t : Track), t ∈ dedupByIdGo l seen → t ∈ l := by
  intro l
  induction l with
  | nil => intro seen t h; exact absurd h (List.not_mem_nil t)
  | cons x rest ih =>
    intro seen t h
    unfold dedupByIdGo at h
    by_cases hc : seen.contains x.id
    · rw [if_pos hc] at h
      exact List.mem_cons_of_mem x (ih seen t h)
    · rw [if_neg hc] at h
      rcases List.mem_cons.mp h with h | h
      · exact h ▸ List.mem_cons_self x rest
      · exact List.mem_cons_of_mem x (ih (x.id :: seen) t h)

theorem dedupByIdGo_ids_nodup :
    ∀ (l : List Track) (seen : List String),
      ((dedupByIdGo l seen).map Track.id).Nodup ∧
      ∀ s ∈ (dedupByIdGo l seen).map Track.id, seen.contains s = false := by
  intro l
  induction l with
  | nil => intro seen; exact ⟨List.nodup_nil, by intro s h; exact absurd h (List.not_mem_nil s)⟩
  | cons x rest ih =>
    intro seen
    unfold dedupByIdGo
    by_cases hc : seen.contains x.id
    · rw [if_pos hc]
      exact ih seen
    · rw [if_neg hc]
      obtain ⟨hnd, hnotin⟩ := ih (x.id :: seen)
      constructor
      · rw [List.map_cons, List.nodup_cons]
        refine ⟨fun hmem => ?_, hnd⟩
        have := hnotin x.id hmem
        simp [List.contains_cons] at this
      · intro s hs
        rw [List.map_cons, List.mem_cons] at hs
        rcases hs with rfl | hs
        · exact Bool.eq_false_iff.mpr hc
        · have := hnotin s hs
          simp only [List.contains_cons, Bool.or_eq_false_iff] at this
          exact this.2

theorem compatible_tracks_mem (lib : List Track) (seed : Track) (e : Rat) (t : Track)
    (h : t ∈ compatible_tracks lib seed e) : t ∈ lib ∧ t.id ≠ seed.id := by
  have h1 : t ∈ compatible_raw lib seed e := dedupByIdGo_subset _ _ t h
  unfold compatible_raw at h1
  have h2 : t ∈ candidate_tracks lib seed := (List.mem_filter.mp h1).1
  unfold candidate_tracks at h2
  obtain ⟨hmem, hid⟩ := List.mem_filter.mp h2
  refine ⟨hmem, fun heq => ?_⟩
  rw [heq] at hid
  simp at hid

theorem compatible_tracks_ids_nodup (lib : List Track) (seed : Track) (e : Rat) :
    ((compatible_tracks lib seed e).map Track.id).Nodup :=
  (dedupByIdGo_ids_nodup _ []).1

theorem pySlice_sublist {α : Type} (l : List α) (k : Int) : (pySlice l k).Sublist l := by
  unfold pySlice
  split
  · exact List.take_sublist _ _
  · exact List.take_sublist _ _

theorem pySlice_length_le {α : Type} (l : List α) (k count : Int)
    (h0 : 0 ≤ k) (hk : k ≤ count) : ((pySlice l k).length : Int) ≤ count := by
  unfold pySlice
  rw [if_pos h0]
  have h1 : (l.take k.toNat).length ≤ k.toNat := by
    rw [List.length_take]
    exact Nat.min_le_left _ _
  calc ((l.take k.toNat).length : Int) ≤ (k.toNat : Int) := Int.ofNat_le.mpr h1
    _ = k := Int.toNat_of_nonneg h0
    _ ≤ count := hk

/-- If a list is non-empty, some element of it equals an element of it
(its head), stated on the Bool combinators used by the genre predicate. -/
theorem any_contains_self (l : List String) (h : l.isEmpty = false) :
    (l.any fun g => l.contains g) = true := by
  cases l with
  | nil => simp at h
  | cons a as => simp [List.any_cons, List.contains_cons]

/-- Claim C4: the quantum shuffle is a permutation: for every input list and
every byte string (including too few or zero bytes), the multiset of
elements of the output equals the multiset of elements of the input; the
shuffle itself never fabricates, drops, or duplicates an element. -/
theorem c4_shuffle_is_permutation {α : Type} (items : List α) (qr_bytes : List Nat) :
    Multiset.ofList (quantum_shuffle items qr_bytes) = Multiset.ofList items :=
  Multiset.coe_eq_coe.mpr (quantum_shuffle_perm items qr_bytes)

/-- Claim C3: key compatibility is monotone in entropy: for parsed Camelot
keys and entropies e1 < e2 in [0,1], a pair accepted at e1 is accepted
at e2 (each tier is a superset of every lower tier). -/
theorem c3_key_tiers_monotone (k1 k2 : ParsedCamelotKey) (e1 e2 : Rat)
    (h0 : 0 ≤ e1) (hlt : e1 < e2) (h1 : e2 ≤ 1)
    (hc : is_key_compatible (some k1) (some k2) e1 = true) :
    is_key_compatible (some k1) (some k2) e2 = true := by
  simp only [is_key_compatible] at hc ⊢
  by_cases hk : k1 = k2
  · rw [if_pos hk]
  · rw [if_neg hk] at hc ⊢
    rcases le_or_lt e1 (0.5 : Rat) with ha | ha
    · rw [if_pos ha] at hc
      rcases le_or_lt e2 (0.5 : Rat) with hb | hb
      · rw [if_pos hb]; exact hc
      · rw [if_neg (not_le.mpr hb)]
        rcases le_or_lt e2 (0.75 : Rat) with hc2 | hc2
        · rw [if_pos hc2]
          simp only [Bool.or_eq_true] at hc ⊢
          tauto
        · rw [if_neg (not_le.mpr hc2)]
          simp only [Bool.or_eq_true] at hc ⊢
          tauto
    · have hb : ¬ e2 ≤ (0.5 : Rat) := not_le.mpr (lt_trans ha hlt)
      rw [if_neg (not_le.mpr ha)] at hc
      rw [if_neg hb]
      rcases le_or_lt e1 (0.75 : Rat) with hc1 | hc1
      · rw [if_pos hc1] at hc
        rcases le_or_lt e2 (0.75 : Rat) with hc2 | hc2
        · rw [if_pos hc2]; exact hc
        · rw [if_neg (not_le.mpr hc2)]
          simp only [Bool.or_eq_true] at hc ⊢
          tauto
      · have hc2 : ¬ e2 ≤ (0.75 : Rat) := not_le.mpr (lt_trans hc1 hlt)
        rw [if_neg (not_le.mpr hc1)] at hc
        rw [if_neg hc2]; exact hc

/-- Witness for C3 at keys 8A and 9A, entropies 0 and 1. -/
theorem c3_key_tiers_monotone_witness :
    is_key_compatible (some ⟨8, 'A'⟩) (some ⟨9, 'A'⟩) 1 = true :=
  c3_key_tiers_monotone ⟨8, 'A'⟩ ⟨9, 'A'⟩ 0 1 (by norm_num) (by norm_num) (by norm_num)
    (by with_unfolding_all decide)

/-- Claim C1: the overall compatibility predicate combines the four
sub-predicates exactly by the tier policy: all four at entropy below 0.5,
at least 3 of 4 on [0.5, 0.8), at least 2 of 4 at and above 0.8. -/
theorem c1_combination_policy (t1 t2 : Track) (e : Rat) (h0 : 0 ≤ e) (h1 : e ≤ 1) :
    (e < 0.5 → is_compatible t1 t2 e =
      (bpm_close t1 t2 e && key_match t1 t2 e && time_sig_match t1 t2 e && genre_match t1 t2 e)) ∧
    (0.5 ≤ e → e < 0.8 → (is_compatible t1 t2 e = true ↔
      3 ≤ pyBoolSum [bpm_close t1 t2 e, key_match t1 t2 e, time_sig_match t1 t2 e,
        genre_match t1 t2 e])) ∧
    (0.8 ≤ e → (is_compatible t1 t2 e = true ↔
      2 ≤ pyBoolSum [bpm_close t1 t2 e, key_match t1 t2 e, time_sig_match t1 t2 e,
        genre_match t1 t2 e])) := by
  refine ⟨fun hlt => ?_, fun hge hlt => ?_, fun hge => ?_⟩
  · unfold is_compatible
    rw [if_pos hlt]
  · unfold is_compatible
    rw [if_neg (not_lt.mpr hge), if_pos hlt, decide_eq_true_eq]
  · unfold is_compatible
    rw [if_neg (not_lt.mpr (le_trans (by norm_num) hge)),
      if_neg (not_lt.mpr hge), decide_eq_true_eq]

/-- Witness for C1 at the fixture tracks and entropy 0.6. -/
theorem c1_combination_policy_witness :
    ((0.6 : Rat) < 0.5 → is_compatible trackA trackB 0.6 =
      (bpm_close trackA trackB 0.6 && key_match trackA trackB 0.6 &&
        time_sig_match trackA trackB 0.6 && genre_match trackA trackB 0.6)) ∧
    ((0.5 : Rat) ≤ 0.6 → (0.6 : Rat) < 0.8 → (is_compatible trackA trackB 0.6 = true ↔
      3 ≤ pyBoolSum [bpm_close trackA trackB 0.6, key_match trackA trackB 0.6,
        time_sig_match trackA trackB 0.6, genre_match trackA trackB 0.6])) ∧
    ((0.8 : Rat) ≤ 0.6 → (is_compatible trackA trackB 0.6 = true ↔
      2 ≤ pyBoolSum [bpm_close trackA trackB 0.6, key_match trackA trackB 0.6,
        time_sig_match trackA trackB 0.6, genre_match trackA trackB 0.6])) :=
  c1_combination_policy trackA trackB 0.6 (by norm_num) (by norm_num)

/-- Claim C6: self-compatibility: a track whose Camelot position parses and
whose time signature is a known label is compatible with itself at every
entropy in [0,1]. -/
theorem c6_self_compatibility (t : Track) (k : ParsedCamelotKey) (e : Rat)
    (hk : parse_camelot_key t.camelot_position = some k)
    (hts : t.time_signature ≠ "Unknown")
    (h0 : 0 ≤ e) (h1 : e ≤ 1) :
    is_compatible t t e = true := by
  have hb : bpm_close t t e = true := by
    unfold bpm_close
    rw [decide_eq_true_eq, sub_self, abs_zero]
    have htol : (0 : Int) ≤ bpm_tolerance e := by
      unfold bpm_tolerance rat_trunc
      have he : (0 : Rat) ≤ e * 20 := mul_nonneg h0 (by norm_num)
      rw [if_pos he]
      have := Int.floor_nonneg.mpr he
      omega
    exact_mod_cast htol
  have hkm : key_match t t e = true := by
    unfold key_match
    rw [hk]
    simp [is_key_compatible]
  have htm : time_sig_match t t e = true := by
    unfold time_sig_match is_time_signature_compatible
    rw [if_neg (by simpa using hts), if_pos rfl]
  have hgm : genre_match t t e = true := by
    unfold genre_match are_genres_compatible
    by_cases hge : t.genres.isEmpty
    · rw [if_pos (by rw [hge]; rfl)]
    · have hge2 : t.genres.isEmpty = false := Bool.eq_false_iff.mpr hge
      have hmap : (t.genres.map py_lower).isEmpty = false := by
        cases hg : t.genres with
        | nil => rw [hg] at hge2; simp at hge2
        | cons a as => rfl
      have hex : genres_exact_shared t.genres t.genres = true := by
        unfold genres_exact_shared
        exact any_contains_self _ hmap
      rw [if_neg (by rw [hge2]; simp), if_neg (by rw [hge2]; simp)]
      split_ifs <;> simp [hex]
  unfold is_compatible
  split_ifs <;> simp [hb, hkm, htm, hgm, pyBoolSum]

/-- Witness for C6 at fixture track A and entropy 0.7. -/
theorem c6_self_compatibility_witness : is_compatible trackA trackA 0.7 = true :=
  c6_self_compatibility trackA ⟨8, 'A'⟩ 0.7 (by with_unfolding_all decide)
    (by with_unfolding_all decide) (by norm_num) (by norm_num)

/-- Counterexample to claim C8 as stated: the label " 1A" (leading space) is
accepted by the parser, because Python int(" 1") strips whitespace, although
its portion before the last character is not a plain decimal integer in
[1,12] in the sense of the spec wording. -/
theorem c8_counterexample :
    parse_camelot_key " 1A" = some ⟨1, 'A'⟩ ∧ spec_camelot_well_formed " 1A" = false :=
  ⟨by decide, by decide⟩

/-- Claim C8 (amended): the parser returns key k exactly when the label has
length 2 to 3, Python int conversion (which accepts Unicode decimal digits
and also tolerates strippable surrounding whitespace, an ASCII sign, and
digit-separating underscores) maps the portion before the last character to
k.number in [1,12], and the last character is the mode k.mode, which is A
or B. The Lean parser is total, mirroring the source, which catches
ValueError and never raises on any string. -/
theorem c8_parser_characterization (s : String) (k : ParsedCamelotKey) :
    parse_camelot_key s = some k ↔
      (2 ≤ s.length ∧ s.length ≤ 3 ∧
       pyInt (String.mk s.data.dropLast) = some k.number ∧
       1 ≤ k.number ∧ k.number ≤ 12 ∧
       s.data.getLastD ' ' = k.mode ∧ (k.mode = 'A' ∨ k.mode = 'B')) := by
  unfold parse_camelot_key
  by_cases hlen : 2 ≤ s.length ∧ s.length ≤ 3
  · rw [if_pos hlen]
    cases hp : pyInt (String.mk s.data.dropLast) with
    | none =>
      constructor
      · intro h; exact Option.noConfusion h
      · rintro ⟨_, _, hpn, _⟩; exact Option.noConfusion hpn
    | some n =>
      show (if 1 ≤ n ∧ n ≤ 12 ∧ (s.data.getLastD ' ' = 'A' ∨ s.data.getLastD ' ' = 'B') then
          some (⟨n, s.data.getLastD ' '⟩ : ParsedCamelotKey) else none) = some k ↔
        (2 ≤ s.length ∧ s.length ≤ 3 ∧ some n = some k.number ∧
         1 ≤ k.number ∧ k.number ≤ 12 ∧
         s.data.getLastD ' ' = k.mode ∧ (k.mode = 'A' ∨ k.mode = 'B'))
      by_cases hcond : 1 ≤ n ∧ n ≤ 12 ∧
          (s.data.getLastD ' ' = 'A' ∨ s.data.getLastD ' ' = 'B')
      · rw [if_pos hcond]
        constructor
        · intro h
          have hk : k = ⟨n, s.data.getLastD ' '⟩ := (Option.some_inj.mp h).symm
          subst hk
          exact ⟨hlen.1, hlen.2, rfl, hcond.1, hcond.2.1, rfl, hcond.2.2⟩
        · rintro ⟨_, _, hpn, _, _, hmode, _⟩
          have hn : n = k.number := Option.some_inj.mp hpn
          rw [hn, hmode]
      · rw [if_neg hcond]
        constructor
        · intro h; exact Option.noConfusion h
        · rintro ⟨_, _, hpn, h1n, h12n, hmode, hAB⟩
          exfalso
          have hn : n = k.number := Option.some_inj.mp hpn
          refine hcond ⟨hn ▸ h1n, hn ▸ h12n, ?_⟩
          rw [hmode]
          exact hAB
  · rw [if_neg hlen]
    constructor
    · intro h; exact Option.noConfusion h
    · rintro ⟨h2, h3, _⟩; exact absurd ⟨h2, h3⟩ hlen

/-- Counterexample to claim C9 as stated: a non-positive byte request does
not fail loudly: with a perfectly working network the call returns None,
the very same value the function returns when the source is unavailable, so
the contract violation is silently absorbed rather than raised. -/
theorem c9_counterexample :
    get_quantum_random_bytes netGood 0 = none ∧
    get_quantum_random_bytes netNone 5 = none :=
  ⟨rfl, rfl⟩

/-- Claim C9 (amended): for a non-positive requested size the function
returns None immediately, and the result does not depend on the network at
all (no call is made); the violation is absorbed into the same None outcome
as source unavailability instead of failing loudly. -/
theorem c9_nonpositive_size_silent (net net2 : Nat → Option (List Nat)) (size : Int)
    (h : size ≤ 0) :
    get_quantum_random_bytes net size = none ∧
    get_quantum_random_bytes net size = get_quantum_random_bytes net2 size := by
  unfold get_quantum_random_bytes
  rw [if_pos h, if_pos h]
  exact ⟨rfl, rfl⟩

/-- Witness for C9 (amended) at size 0 with a working and a failing network. -/
theorem c9_nonpositive_size_silent_witness :
    get_quantum_random_bytes netGood 0 = none ∧
    get_quantum_random_bytes netGood 0 = get_quantum_random_bytes netNone 0 :=
  c9_nonpositive_size_silent netGood netNone 0 (le_refl 0)

/-- Counterexample to claim C7 as stated: with an EMPTY library the guard on
the track list precedes the entropy validation, so an out-of-range entropy
of 2 is silently answered with the empty list instead of an error. -/
theorem c7_counterexample : recommend_tracks netNone [] trackA 2 1 = .ok [] := rfl

/-- Claim C7 (amended): for a non-empty library, an entropy outside [0,1]
makes recommend_tracks fail fast with ValueError; the value is never
clamped into range. -/
theorem c7_out_of_range_raises (net : Nat → Option (List Nat)) (lib : List Track)
    (seed : Track) (e : Rat) (count : Int)
    (hlib : lib ≠ []) (hout : e < 0 ∨ 1 < e) :
    recommend_tracks net lib seed e count =
      .error "Entropy level must be between 0.0 and 1.0." := by
  have h1 : lib.isEmpty = false := by
    cases lib with
    | nil => exact absurd rfl hlib
    | cons a l => rfl
  have h2 : ¬ (0 ≤ e ∧ e ≤ 1) := by
    rintro ⟨ha, hb⟩
    rcases hout with h | h
    · exact absurd ha (not_le.mpr h)
    · exact absurd hb (not_le.mpr h)
  unfold recommend_tracks
  rw [if_neg (by simp [h1]), if_pos h2]

/-- Witness for C7 (amended) at a one-track library and entropy 2. -/
theorem c7_out_of_range_raises_witness :
    recommend_tracks netNone [trackA] trackA 2 1 =
      .error "Entropy level must be between 0.0 and 1.0." :=
  c7_out_of_range_raises netNone [trackA] trackA 2 1 (List.cons_ne_nil _ _)
    (Or.inr (by norm_num))

/-- With an always-failing network, fetching bytes yields None for every
requested size. -/
theorem get_quantum_random_bytes_none (net : Nat → Option (List Nat))
    (hnet : ∀ n, net n = none) (size : Int) :
    get_quantum_random_bytes net size = none := by
  unfold get_quantum_random_bytes
  split
  · rfl
  · exact hnet _

/-- Claim C10: when no track of the library has a parseable Camelot
position, the centroid surrogate track is not constructed, and a candidate
is in the compatible pool exactly when it is compatible with the seed track,
at every entropy in [0,1], in particular above 0.55. -/
theorem c10_no_keys_no_centroid (lib : List Track) (seed t : Track) (e : Rat)
    (hk : ∀ u ∈ lib, parse_camelot_key u.camelot_position = none)
    (h0 : 0 ≤ e) (h1 : e ≤ 1) :
    centroid_track_surrogate lib = none ∧
    (t ∈ compatible_raw lib seed e ↔
      (t ∈ candidate_tracks lib seed ∧ is_compatible t seed e = true)) := by
  have hparsed : ((lib.map fun u => parse_camelot_key u.camelot_position).filterMap id) = [] := by
    rw [List.filterMap_eq_nil_iff]
    intro o ho
    rw [List.mem_map] at ho
    obtain ⟨u, hu, rfl⟩ := ho
    exact hk u hu
  have hsurr : centroid_track_surrogate lib = none := by
    cases hl : lib with
    | nil => rfl
    | cons a l =>
      have hp2 : (((a :: l).map fun u => parse_camelot_key u.camelot_position).filterMap id)
          = [] := by
        rw [← hl]
        exact hparsed
      simp only [centroid_track_surrogate, calculate_playlist_centroid, List.isEmpty_cons,
        Bool.false_eq_true, if_false]
      rw [hp2]
      rfl
  refine ⟨hsurr, ?_⟩
  unfold compatible_raw
  simp only [hsurr, Bool.or_false]
  exact List.mem_filter

/-- Witness for C10 at a two-track library whose keys are all "Unknown",
entropy 0.9. -/
theorem c10_no_keys_no_centroid_witness :
    centroid_track_surrogate [trackU1, trackU2] = none ∧
    (trackU2 ∈ compatible_raw [trackU1, trackU2] trackU1 0.9 ↔
      (trackU2 ∈ candidate_tracks [trackU1, trackU2] trackU1 ∧
       is_compatible trackU2 trackU1 0.9 = true)) :=
  c10_no_keys_no_centroid [trackU1, trackU2] trackU1 trackU2 0.9
    (by decide) (by norm_num) (by norm_num)

/-- Claim C2: with a valid entropy, a non-empty compatible set and an
unavailable entropy source, recommend_tracks returns the first
min(|compatible|, count) compatible tracks in their existing order when
entropy < 0.1 or the compatible set has at most one member, and the empty
list otherwise; it never substitutes a pseudo-random shuffle (the result is
fully determined with no randomness). -/
theorem c2_unavailable_source_degradation (net : Nat → Option (List Nat))
    (lib : List Track) (seed : Track) (e : Rat) (count : Int)
    (hnet : ∀ n, net n = none) (h0 : 0 ≤ e) (h1 : e ≤ 1)
    (hne : compatible_tracks lib seed e ≠ []) :
    recommend_tracks net lib seed e count =
      .ok (if e < 0.1 ∨ (compatible_tracks lib seed e).length ≤ 1 then
        pySlice (compatible_tracks lib seed e)
          (min ((compatible_tracks lib seed e).length : Int) count)
      else []) := by
  have hlib : lib.isEmpty = false := by
    cases hl : lib with
    | nil => subst hl; exact absurd rfl hne
    | cons a l => rfl
  have hcand : (candidate_tracks lib seed).isEmpty = false := by
    cases hc : candidate_tracks lib seed with
    | nil =>
      exfalso
      apply hne
      unfold compatible_tracks compatible_raw
      rw [hc]
      rfl
    | cons a l => rfl
  have hcompat : (compatible_tracks lib seed e).isEmpty = false := by
    cases hcc : compatible_tracks lib seed e with
    | nil => exact absurd hcc hne
    | cons a l => rfl
  have hq0 : ∀ z : Nat,
      (if 0 < z then get_quantum_random_bytes net (z : Int) else none) = none := by
    intro z
    split
    · exact get_quantum_random_bytes_none net hnet _
    · rfl
  simp only [recommend_tracks]
  rw [if_neg (by simp [hlib]), if_neg (not_not_intro ⟨h0, h1⟩), if_neg (by simp [hcand]),
    if_neg (by simp [hcompat])]
  by_cases hnum : min ((compatible_tracks lib seed e).length : Int) count = 0
  · rw [if_pos hnum, hnum]
    have hps : pySlice (compatible_tracks lib seed e) 0 = [] := rfl
    rw [hps, ite_self]
  · rw [if_neg hnum]
    simp only [hq0]
    rw [if_pos (show optBytesFalsy none = true from rfl)]
    split_ifs
    · rfl
    · rfl

/-- Witness for C2 at a two-track library, entropy 0, count 3, a failing
source. -/
theorem c2_unavailable_source_degradation_witness :
    recommend_tracks netNone [trackA, trackB] trackA 0 3 =
      .ok (if (0 : Rat) < 0.1 ∨ (compatible_tracks [trackA, trackB] trackA 0).length ≤ 1 then
        pySlice (compatible_tracks [trackA, trackB] trackA 0)
          (min ((compatible_tracks [trackA, trackB] trackA 0).length : Int) 3)
      else []) :=
  c2_unavailable_source_degradation netNone [trackA, trackB] trackA 0 3
    (fun _ => rfl) (le_refl 0) (by norm_num) (by with_unfolding_all decide)

/-- Counterexample to claim C5 as stated: with count = -1 (which the claim
quantifies over), entropy 0 and an unavailable source, the Python slice
compatible[:num_to_select] with num_to_select = min(2, -1) = -1 keeps all
but the last compatible track, so the result [trackB] has length 1, which
is not at most the requested count -1. -/
theorem c5_counterexample :
    recommend_tracks netNone [trackA, trackB, trackC] trackA 0 (-1) = .ok [trackB] ∧
    ¬ (((([trackB] : List Track).length : Int)) ≤ -1) :=
  ⟨by with_unfolding_all rfl, by decide⟩

/-- Claim C5 (amended to count ≥ 0, the only change the counterexample
forces): for every library, seed, valid entropy, count ≥ 0 and any
byte-source outcome, a successful result has length at most count, no two
elements share an identifier, and every element (here an arbitrary t) comes
from the library and never carries the seed identifier. -/
theorem c5_result_wellformed (net : Nat → Option (List Nat)) (lib : List Track)
    (seed t : Track) (e : Rat) (count : Int) (res : List Track)
    (h0 : 0 ≤ e) (h1 : e ≤ 1) (hcount : 0 ≤ count)
    (hres : recommend_tracks net lib seed e count = .ok res) :
    (res.length : Int) ≤ count ∧ (res.map Track.id).Nodup ∧
    (t ∈ res → t ∈ lib ∧ t.id ≠ seed.id) := by
  have hnil : ((([] : List Track).length : Int) ≤ count ∧
      (([] : List Track).map Track.id).Nodup ∧
      (t ∈ ([] : List Track) → t ∈ lib ∧ t.id ≠ seed.id)) := by
    refine ⟨by simpa using hcount, by simp, ?_⟩
    intro ht
    exact absurd ht (List.not_mem_nil t)
  have hnum0 : (0 : Int) ≤ min ((compatible_tracks lib seed e).length : Int) count :=
    le_min (Int.ofNat_nonneg _) hcount
  have hnumc : min ((compatible_tracks lib seed e).length : Int) count ≤ count :=
    min_le_right _ _
  simp only [recommend_tracks] at hres
  split at hres
  · injection hres with h; subst h; exact hnil
  · split at hres
    · exact Except.noConfusion hres
    · split at hres
      · injection hres with h; subst h; exact hnil
      · split at hres
        · injection hres with h; subst h; exact hnil
        · split at hres
          · injection hres with h; subst h; exact hnil
          · generalize (if 0 < (if 1 < (compatible_tracks lib seed e).length then
                  (compatible_tracks lib seed e).length - 1 else 0) then
                get_quantum_random_bytes net
                  (((if 1 < (compatible_tracks lib seed e).length then
                    (compatible_tracks lib seed e).length - 1 else 0) : Nat) : Int)
              else none) = qb at hres
            split at hres
            · split at hres
              · injection hres with h; subst h
                refine ⟨pySlice_length_le _ _ _ hnum0 hnumc, ?_, ?_⟩
                · exact List.Nodup.sublist ((pySlice_sublist _ _).map Track.id)
                    (compatible_tracks_ids_nodup lib seed e)
                · intro ht
                  exact compatible_tracks_mem lib seed e t ((pySlice_sublist _ _).subset ht)
              · injection hres with h; subst h; exact hnil
            · injection hres with h; subst h
              refine ⟨pySlice_length_le _ _ _ hnum0 hnumc, ?_, ?_⟩
              · exact List.Nodup.sublist ((pySlice_sublist _ _).map Track.id)
                  (((quantum_shuffle_perm _ _).map Track.id).nodup_iff.mpr
                    (compatible_tracks_ids_nodup lib seed e))
              · intro ht
                exact compatible_tracks_mem lib seed e t
                  ((quantum_shuffle_perm _ _).mem_iff.mp ((pySlice_sublist _ _).subset ht))

/-- Witness for C5 (amended) at the three-track library, entropy 0, count 2,
result [trackB, trackC], element trackB. -/
theorem c5_result_wellformed_witness :
    ((([trackB, trackC] : List Track).length : Int) ≤ 2 ∧
     (([trackB, trackC] : List Track).map Track.id).Nodup ∧
     (trackB ∈ ([trackB, trackC] : List Track) →
       trackB ∈ [trackA, trackB, trackC] ∧ trackB.id ≠ trackA.id)) :=
  c5_result_wellformed netNone [trackA, trackB, trackC] trackA trackB 0 2 [trackB, trackC]
    (le_refl 0) (by norm_num) (by norm_num) (by with_unfolding_all rfl)
